import Mathlib

/-!
Verification of the asynchronous write-propagation pipeline of the plan
management service: the worker consumer's retry/backoff/dead-letter state
machine (`worker.py`), the Elasticsearch fan-out indexer
(`services/elasticsearch_service.py`) and the synchronous API controllers
with their optimistic concurrency guard (`controllers/plan_controller.py`).

JSON documents are modelled by the inductive type `JVal`; Python dicts by
association lists `JDict` (Python dicts preserve insertion order and have
no duplicate keys).
-/

/-- A JSON value, as produced by `json.loads` / consumed by `json.dumps`.
Objects are association lists in insertion order, as Python dicts are. -/
inductive JVal where
  | null
  | bool (b : Bool)
  | num (n : Int)
  | str (s : String)
  | arr (elems : List JVal)
  | obj (fields : List (String × JVal))

mutual

/-- Structural equality of JSON values. -/
def jeq : JVal → JVal → Bool
  | .null, .null => true
  | .bool a, .bool b => a == b
  | .num a, .num b => a == b
  | .str a, .str b => a == b
  | .arr xs, .arr ys => jeqList xs ys
  | .obj fs, .obj gs => jeqFields fs gs
  | _, _ => false

/-- Structural equality of JSON arrays. -/
def jeqList : List JVal → List JVal → Bool
  | [], [] => true
  | x :: xs, y :: ys => jeq x y && jeqList xs ys
  | _, _ => false

/-- Structural equality of JSON object field lists. -/
def jeqFields : List (String × JVal) → List (String × JVal) → Bool
  | [], [] => true
  | (k, v) :: ps, (k', v') :: qs => k == k' && jeq v v' && jeqFields ps qs
  | _, _ => false

end

mutual

theorem jeq_iff : ∀ a b : JVal, jeq a b = true ↔ a = b
  | .null, .null => by simp [jeq]
  | .bool a, .bool b => by simp [jeq]
  | .num a, .num b => by simp [jeq]
  | .str a, .str b => by simp [jeq]
  | .arr xs, .arr ys => by
      simp only [jeq, jeqList_iff xs ys, JVal.arr.injEq]
  | .obj fs, .obj gs => by
      simp only [jeq, jeqFields_iff fs gs, JVal.obj.injEq]
  | .null, .bool _ | .null, .num _ | .null, .str _ | .null, .arr _ | .null, .obj _
  | .bool _, .null | .bool _, .num _ | .bool _, .str _ | .bool _, .arr _ | .bool _, .obj _
  | .num _, .null | .num _, .bool _ | .num _, .str _ | .num _, .arr _ | .num _, .obj _
  | .str _, .null | .str _, .bool _ | .str _, .num _ | .str _, .arr _ | .str _, .obj _
  | .arr _, .null | .arr _, .bool _ | .arr _, .num _ | .arr _, .str _ | .arr _, .obj _
  | .obj _, .null | .obj _, .bool _ | .obj _, .num _ | .obj _, .str _ | .obj _, .arr _ => by
      simp [jeq]

theorem jeqList_iff : ∀ xs ys : List JVal, jeqList xs ys = true ↔ xs = ys
  | [], [] => by simp [jeqList]
  | x :: xs, y :: ys => by
      simp [jeqList, jeq_iff x y, jeqList_iff xs ys]
  | [], _ :: _ => by simp [jeqList]
  | _ :: _, [] => by simp [jeqList]

theorem jeqFields_iff : ∀ ps qs : List (String × JVal), jeqFields ps qs = true ↔ ps = qs
  | [], [] => by simp [jeqFields]
  | (k, v) :: ps, (k', v') :: qs => by
      simp [jeqFields, jeq_iff v v', jeqFields_iff ps qs, and_assoc]
  | [], _ :: _ => by simp [jeqFields]
  | _ :: _, [] => by simp [jeqFields]

end

instance : DecidableEq JVal := fun a b =>
  decidable_of_iff (jeq a b = true) (jeq_iff a b)

/-- A Python dict with JSON values: an association list in insertion order. -/
abbrev JDict := List (String × JVal)

/-- `d.get(k)`: first binding of key `k`, if any. -/
def jget (d : JDict) (k : String) : Option JVal :=
  (d.find? (fun p => p.1 == k)).map (·.2)

/-- Python truthiness of a JSON value (`bool(v)`). -/
def truthy : JVal → Bool
  | .null => false
  | .bool b => b
  | .num n => n != 0
  | .str s => s ≠ ""
  | .arr xs => !xs.isEmpty
  | .obj fs => !fs.isEmpty

/-- Python truthiness of `d.get(k)` (absent key is `None`, hence falsy). -/
def truthyO : Option JVal → Bool
  | none => false
  | some v => truthy v

/-- `d[k] = v` on a Python dict: replace the value in place when the key is
present, append the binding otherwise. -/
def dictSet (d : JDict) (k : String) (v : JVal) : JDict :=
  if (d.find? (fun p => p.1 == k)).isSome then
    d.map (fun p => if p.1 == k then (k, v) else p)
  else
    d ++ [(k, v)]

/-- `{**a, **b}`: right-biased dict merge, keeping `a`'s key order. -/
def dictMerge (a b : JDict) : JDict :=
  b.foldl (fun acc p => dictSet acc p.1 p.2) a

/-- A JSON value used where the code requires a dict (`.get`/`.items`); the
upstream schema validation guarantees the dict shape, so other shapes are
modelled as the empty dict. -/
def asDict : JVal → JDict
  | .obj fs => fs
  | _ => []

/-- `d.get(k) or {}` used as a dict (`pcs = plan_doc.get("planCostShares") or {}`):
an absent key, a falsy value, or (outside the schema) a non-object value all
yield the empty dict. -/
def asDictOr : Option JVal → JDict
  | some (.obj fs) => fs
  | _ => []

/-- `d.get(k, []) or []` used as a list (`plan_doc.get("linkedPlanServices", []) or []`). -/
def asArrOr : Option JVal → List JVal
  | some (.arr xs) => xs
  | _ => []

/-! ## Fan-out indexer (`services/elasticsearch_service.py`)

An `ES.index(index=INDEX, id=..., document=..., routing=...)` call is modelled
as an `IndexOp`; the `refresh="wait_for"` kwarg of `_routing` is a consistency
knob with no effect on the final index contents and is not modelled. -/

/-- One document upsert issued against the search index: `ES.index` with a
document id, the full document body, and the routing key from `_routing`. -/
structure IndexOp where
  docId : JVal
  document : JDict
  routing : JVal
deriving DecidableEq

/-- `_upsert_parent(plan_id, fields)`: returns without issuing any call when
`fields` is falsy (empty); otherwise one upsert of the parent document
`{"objectId": plan_id, "objectType": "plan", "rel": "plan", **fields}`
routed to `plan_id`. -/
def upsertParent (plan_id : JVal) (fields : JDict) : List IndexOp :=
  if fields.isEmpty then []
  else [{ docId := plan_id,
          document := dictMerge
            [("objectId", plan_id), ("objectType", JVal.str "plan"), ("rel", JVal.str "plan")]
            fields,
          routing := plan_id }]

/-- `_upsert_child(parent_id, child_id, rel_name, doc)`: one upsert of
`{**doc, "rel": {"name": rel_name, "parent": parent_id}}` with document id
`child_id`, routed to `parent_id`. -/
def upsertChild (parent_id child_id : JVal) (rel_name : String) (doc : JDict) : IndexOp :=
  { docId := child_id,
    document := dictMerge doc
      [("rel", JVal.obj [("name", JVal.str rel_name), ("parent", parent_id)])],
    routing := parent_id }

/-- `if child.get("objectId"): _upsert_child(pid, child["objectId"], rel, child)`:
the child is upserted exactly when its `objectId` is present and truthy. -/
def childOpIfId (pid : JVal) (relName : String) (child : JDict) : List IndexOp :=
  match jget child "objectId" with
  | some cid => if truthy cid then [upsertChild pid cid relName child] else []
  | none => []

/-- The two child upserts attempted for one `linkedPlanServices` item:
its `linkedService` and its `planserviceCostShares`, each only when carrying
a truthy `objectId`. -/
def itemChildOps (pid : JVal) (item : JVal) : List IndexOp :=
  childOpIfId pid "linkedPlanServices" (asDictOr (jget (asDict item) "linkedService")) ++
  childOpIfId pid "planserviceCostShares" (asDictOr (jget (asDict item) "planserviceCostShares"))

/-- `index_plan(plan_doc)`: raises `ValueError` when `plan_doc.get("objectId")`
is falsy; otherwise fans out into the parent upsert (scalar fields `_org`,
`planType`, `creationDate` only), the `planCostShares` child, and per
`linkedPlanServices` item the `linkedService` and `planserviceCostShares`
children, in source order. -/
def index_plan (plan_doc : JDict) : Except String (List IndexOp) :=
  match jget plan_doc "objectId" with
  | none => .error "index_plan: objectId (plan id) is required"
  | some plan_id =>
    if truthy plan_id then
      let parent_fields : JDict :=
        ["_org", "planType", "creationDate"].filterMap
          (fun k => (jget plan_doc k).map (fun v => (k, v)))
      .ok (upsertParent plan_id parent_fields ++
           childOpIfId plan_id "planCostShares" (asDictOr (jget plan_doc "planCostShares")) ++
           (asArrOr (jget plan_doc "linkedPlanServices")).flatMap (itemChildOps plan_id))
    else .error "index_plan: objectId (plan id) is required"

/-- `patch_plan(plan_id, updates)` (indexer entry point): merges every
top-level field except `planCostShares`/`linkedPlanServices` into the parent
document, then upserts the `planCostShares` child when that key is present,
then the children of each `linkedPlanServices` item. -/
def es_patch_plan (plan_id : JVal) (updates : JDict) : List IndexOp :=
  let parent_fields := updates.filter
    (fun p => p.1 != "planCostShares" && p.1 != "linkedPlanServices")
  upsertParent plan_id parent_fields ++
  (if (jget updates "planCostShares").isSome then
      childOpIfId plan_id "planCostShares" (asDictOr (jget updates "planCostShares"))
    else []) ++
  (asArrOr (jget updates "linkedPlanServices")).flatMap (itemChildOps plan_id)

/-! ## Index state

The search index is modelled as a map from document id to the stored
document body and its routing key; `ES.index` overwrites the whole document. -/

/-- The search index: document id ↦ (document body, routing key). -/
abbrev IndexState := JVal → Option (JDict × JVal)

/-- Apply one `ES.index` upsert: full-document overwrite at the doc id. -/
def applyOp (s : IndexState) (op : IndexOp) : IndexState :=
  fun k => if k = op.docId then some (op.document, op.routing) else s k

/-- Apply a list of upserts in order. -/
def applyOps (s : IndexState) (ops : List IndexOp) : IndexState :=
  ops.foldl applyOp s

/-- `ES.delete(index=INDEX, id=docId)`: removes the document, raising
`NotFoundError` when no document has this id. -/
def esDeleteDoc (s : IndexState) (docId : JVal) : Except Unit IndexState :=
  match s docId with
  | none => .error ()
  | some _ => .ok (fun k => if k = docId then none else s k)

/-- The join-relation parent back-reference stored in a child document's
`rel` field (`{"name": ..., "parent": pid}`); `none` for parent documents
(whose `rel` is the plain string `"plan"`) and for documents without
join metadata. -/
def relParent (doc : JDict) : Option JVal :=
  match jget doc "rel" with
  | some (.obj fs) => jget fs "parent"
  | _ => none

/-- `ES.delete_by_query`: removes every stored document matching the query
predicate. -/
def deleteByQuery (p : JDict × JVal → Bool) (s : IndexState) : IndexState :=
  fun k => match s k with
    | some d => if p d then none else some d
    | none => none

/-- `delete_plan_from_index(plan_id)`: deletes the parent by id inside a
`try/except NotFoundError: pass`, then `delete_by_query` with a `has_parent`
query (every document whose join relation names `plan_id` as parent), then
`delete_by_query` on `_routing = plan_id`. -/
def delete_plan_from_index (s : IndexState) (plan_id : JVal) : IndexState :=
  let s1 := match esDeleteDoc s plan_id with
    | .ok s' => s'
    | .error _ => s
  let s2 := deleteByQuery (fun d => relParent d.1 == some plan_id) s1
  deleteByQuery (fun d => d.2 == plan_id) s2

/-! ## Worker consumer (`worker.py`)

`on_msg` is modelled as a pure decision function from the decoded job body to
the action the worker takes on the delivery.  The transport/connection errors
raised by the Elasticsearch client (`ESConnError`, `TransportError`) are
modelled by the `esDown` flag: when the downstream store is unreachable,
exactly those dispatches that actually issue an Elasticsearch call raise a
transient error.  All other exceptions (`KeyError` from a missing job field,
`ValueError` from an unknown type or from `index_plan`) are raised before any
Elasticsearch call on their path and are modelled by `PyErr`. -/

/-- A non-transient Python exception raised while processing a job. -/
inductive PyErr where
  | keyError (k : String)
  | valueError (msg : String)
deriving DecidableEq

/-- The successful dispatch outcomes of `on_msg`'s `try` block. -/
inductive WorkerAction where
  | didIndex (ops : List IndexOp)
  | didPatch (ops : List IndexOp)
  | didDelete (planId : JVal)
deriving DecidableEq

/-- Python `str(e)` for the modelled exceptions: `str(KeyError('doc'))` is
`"'doc'"`; `str(ValueError(msg))` is `msg`. -/
def errStr : PyErr → String
  | .keyError k => "'" ++ k ++ "'"
  | .valueError m => m

/-- Rendering of `job.get("type")` inside the f-string
`f"Unknown job type {t}"`.  The exact Python rendering of container values is
immaterial to every claim; only scalars appear in practice. -/
def pyShowOpt : Option JVal → String
  | none => "None"
  | some .null => "None"
  | some (.bool true) => "True"
  | some (.bool false) => "False"
  | some (.num n) => toString n
  | some (.str s) => s
  | some (.arr _) => "[...]"
  | some (.obj _) => "\x7b...\x7d"

/-- The dispatch-by-type `try` block of `on_msg` (`worker.py` lines 45-53),
with Elasticsearch transport assumed reachable: `index` reads `job["doc"]` and
calls `index_plan`; `patch` reads `job["id"]` then `job["doc"]` (argument
evaluation order) and calls the indexer's `patch_plan`; `delete` reads
`job["id"]`; any other `type` raises `ValueError`. -/
def processJob (job : JDict) : Except PyErr WorkerAction :=
  let t := jget job "type"
  if t == some (.str "index") then
    match jget job "doc" with
    | none => .error (.keyError "doc")
    | some d =>
      match index_plan (asDict d) with
      | .error m => .error (.valueError m)
      | .ok ops => .ok (.didIndex ops)
  else if t == some (.str "patch") then
    match jget job "id" with
    | none => .error (.keyError "id")
    | some pid =>
      match jget job "doc" with
      | none => .error (.keyError "doc")
      | some d => .ok (.didPatch (es_patch_plan pid (asDict d)))
  else if t == some (.str "delete") then
    match jget job "id" with
    | none => .error (.keyError "id")
    | some pid => .ok (.didDelete pid)
  else .error (.valueError ("Unknown job type " ++ pyShowOpt t))

/-- Whether the dispatched action issues at least one Elasticsearch call
(and hence can raise a transient transport error when the store is down):
`index`/`patch` issue one `ES.index` per upsert; `delete` always calls
`ES.delete` and `ES.delete_by_query`. -/
def esTouches : WorkerAction → Bool
  | .didIndex ops => !ops.isEmpty
  | .didPatch ops => !ops.isEmpty
  | .didDelete _ => true

/-- What the worker does with one delivery.  Every branch of `on_msg`
acknowledges the current delivery first; the constructors record what happens
besides the ack. -/
inductive Outcome where
  | ack (act : WorkerAction)
  | ackSleepRepublish (sleepSecs : Nat) (republished : JDict)
  | ackDlq (body : JDict)
deriving DecidableEq

/-- `to_dlq(job, err)` body: `{"error": str(err), "job": job}`. -/
def dlqBody (err : String) (job : JDict) : JDict :=
  [("error", JVal.str err), ("job", JVal.obj job)]

/-- `job.get("attempt", 0)`.  The wire format declares `attempt` an integer;
only the worker ever writes it, always as a number. -/
def pyAttempt (job : JDict) : Int :=
  match jget job "attempt" with
  | some (.num n) => n
  | _ => 0

/-- `str(e)` of the transient `ESConnError`/`TransportError`; the message text
comes from the Elasticsearch client library and is not load-bearing. -/
def transientErrStr : String := "connection error"

/-- MAX_ATTEMPTS in `worker.py`. -/
def MAX_ATTEMPTS : Int := 5

/-- The full `on_msg` handler (`worker.py` lines 42-65).  On success: ack.
On a transient transport error: set `job["attempt"] = job.get("attempt",0)+1`,
ack, and either sleep `min(2**attempt, 30)` then republish (when
`attempt <= MAX_ATTEMPTS`) or dead-letter the job with its last error.  On any
other exception: ack and dead-letter the unmodified job immediately. -/
def on_msg (esDown : Bool) (job : JDict) : Outcome :=
  match processJob job with
  | .error e => .ackDlq (dlqBody (errStr e) job)
  | .ok act =>
    if esDown && esTouches act then
      let a := pyAttempt job + 1
      let job' := dictSet job "attempt" (.num a)
      if a ≤ MAX_ATTEMPTS then .ackSleepRepublish (min (2 ^ a.toNat) 30) job'
      else .ackDlq (dlqBody transientErrStr job')
    else .ack act

/-- The job the worker republishes after the `n`-th consecutive transient
failure of a job first published as `job₀`: each round sets
`attempt := attempt + 1` and re-enqueues. -/
def retrySeq (job₀ : JDict) : Nat → JDict
  | 0 => job₀
  | n + 1 => dictSet (retrySeq job₀ n) "attempt" (.num (pyAttempt (retrySeq job₀ n) + 1))

/-! ## Fingerprint (`controllers/plan_controller.py`, `_etag`)

`_etag(payload) = hashlib.md5(json.dumps(payload, sort_keys=True).encode()).hexdigest()`.
`json.dumps(·, sort_keys=True)` serializes with object keys sorted at every
nesting level; string escaping inside `json.dumps` is injective renaming and
is not modelled.  `sortPairs` uses insertion sort; any sorting algorithm
produces the same (sorted) output on the duplicate-free key lists of Python
dicts. -/

/-- Lexicographic code-point comparison of character lists: the string order
`json.dumps(..., sort_keys=True)` (Python `sorted`) sorts keys by. -/
def listLe : List Char → List Char → Bool
  | [], _ => true
  | _ :: _, [] => false
  | a :: as, b :: bs =>
    if a.toNat < b.toNat then true
    else if b.toNat < a.toNat then false
    else listLe as bs

/-- Ordering of already-serialized object entries by key, as
`json.dumps(..., sort_keys=True)` sorts them. -/
def keyLe (p q : String × String) : Prop := listLe p.1.data q.1.data = true

instance : DecidableRel keyLe := fun p q =>
  inferInstanceAs (Decidable (listLe p.1.data q.1.data = true))

/-- Sort serialized object entries by key. -/
def sortPairs (l : List (String × String)) : List (String × String) :=
  l.insertionSort keyLe

/-- Render one serialized object entry with `json.dumps`'s default
`": "` separator. -/
def renderPair (p : String × String) : String :=
  "\"" ++ p.1 ++ "\": " ++ p.2

mutual

/-- `json.dumps(v, sort_keys=True)`. -/
def dumps : JVal → String
  | .null => "null"
  | .bool true => "true"
  | .bool false => "false"
  | .num n => toString n
  | .str s => "\"" ++ s ++ "\""
  | .arr xs => "[" ++ String.intercalate ", " (dumpsList xs) ++ "]"
  | .obj fs => "\x7b" ++ String.intercalate ", " ((sortPairs (dumpsFields fs)).map renderPair) ++ "\x7d"

/-- Serialize the elements of a JSON array in order. -/
def dumpsList : List JVal → List String
  | [] => []
  | x :: xs => dumps x :: dumpsList xs

/-- Serialize the values of an object's fields, keeping each key. -/
def dumpsFields : List (String × JVal) → List (String × String)
  | [] => []
  | (k, v) :: ps => (k, dumps v) :: dumpsFields ps

end

/-- One lower-case hexadecimal digit: code point 48 (`0`) + the value for
0–9, code point 97 (`a`) + the value − 10 for 10–15. -/
def hexDigit (n : Nat) : Char :=
  if n < 10 then Char.ofNat (48 + n) else Char.ofNat (87 + n)

/-- Big-endian hexadecimal digits of `n` (with explicit recursion fuel). -/
def hexDigitsAux : Nat → Nat → List Char
  | 0, _ => []
  | fuel + 1, n => if n = 0 then [] else hexDigitsAux fuel (n / 16) ++ [hexDigit (n % 16)]

/-- Render a natural number in lower-case hexadecimal. -/
def toHex (n : Nat) : String :=
  if n = 0 then "0" else String.mk (hexDigitsAux 16 n)

/-- Stand-in for the external `hashlib.md5(...).hexdigest()`: a concrete pure
function of the serialized string.  Every claim about the fingerprint depends
only on the digest being a deterministic function of the canonical
serialization, not on the MD5 internals. -/
def md5Hex (s : String) : String :=
  toHex (s.data.foldl (fun h c => (h * 31 + c.toNat) % 18446744073709551616) 5381)

/-- `_etag(payload)`: digest of the canonical (sorted-keys) serialization. -/
def etag (payload : JDict) : String :=
  md5Hex (dumps (JVal.obj payload))

/-! ## API controllers (`controllers/plan_controller.py`)

The synchronous request path is modelled as pure state transformers over the
system of record (the redis key-value store, `services/redis_service.py`:
`set_data`/`get_data`/`delete_data` on JSON payloads) and the published-job
queue.  Schema validation (`utils/schema_validator.validate_schema`, an
external collaborator outside this repository's pipeline) is a parameter
`valid`; queue availability (`_publish_safe` catching a publish failure and
returning 503) is a parameter `queueUp`. -/

/-- The state touched by a controller call: the key-value store and the
sequence of jobs published to the main queue, in publish order. -/
structure ApiState where
  store : List (String × JDict)
  queue : List JDict
deriving DecidableEq

/-- `get_data(key)` (redis GET + `json.loads`). -/
def kvGet (st : List (String × JDict)) (k : String) : Option JDict :=
  (st.find? (fun p => p.1 == k)).map (·.2)

/-- `set_data(key, value)` (redis SET). -/
def kvSet (st : List (String × JDict)) (k : String) (v : JDict) : List (String × JDict) :=
  if (st.find? (fun p => p.1 == k)).isSome then
    st.map (fun p => if p.1 == k then (k, v) else p)
  else
    st ++ [(k, v)]

/-- `delete_data(key)` (redis DEL). -/
def kvDel (st : List (String × JDict)) (k : String) : List (String × JDict) :=
  st.filter (fun p => p.1 != k)

/-- Python truthiness of `get_data(key)`: `None` and the empty dict are
falsy (`if existing:` / `if not data:` / `bool(get_data(key))`). -/
def kvTruthy : Option JDict → Bool
  | none => false
  | some d => !d.isEmpty

/-- Truthiness of `request.headers.get("If-Match")`: absent header is `None`;
an empty header value is falsy. -/
def hdrTruthy : Option String → Bool
  | none => false
  | some s => s ≠ ""

/-- `_key(object_id)`. -/
def planKey (object_id : String) : String := "plan_" ++ object_id

/-- A controller response: HTTP status and the `ETag` header when set.
Response bodies carry no information the claims refer to. -/
structure Resp where
  status : Nat
  respEtag : Option String := none
deriving DecidableEq

/-- The job published by `put_plan` (and `create_plan`):
`{"type": "index", "id": object_id, "doc": payload}`. -/
def indexJob (object_id : String) (payload : JDict) : JDict :=
  [("type", JVal.str "index"), ("id", JVal.str object_id), ("doc", JVal.obj payload)]

/-- `put_plan(object_id)` (`controllers/plan_controller.py` lines 74-99):
validate; when a truthy stored record exists and a truthy `If-Match`
differs from its etag, reject 412 before any mutation; otherwise store the
payload, publish an `index` job (503 when the queue is down), and answer
201 with the new etag. -/
def put_plan_ctrl (valid : JDict → Bool) (queueUp : Bool) (object_id : String)
    (payload : JDict) (ifMatch : Option String) (st : ApiState) : Resp × ApiState :=
  if !valid payload then ({ status := 400 }, st)
  else
    let existing := kvGet st.store (planKey object_id)
    let conflict :=
      kvTruthy existing &&
      hdrTruthy ifMatch &&
      (ifMatch.getD "") != etag (existing.getD [])
    if conflict then ({ status := 412 }, st)
    else
      let st1 : ApiState := { st with store := kvSet st.store (planKey object_id) payload }
      if !queueUp then ({ status := 503 }, st1)
      else
        let st2 : ApiState := { st1 with queue := st1.queue ++ [indexJob object_id payload] }
        ({ status := 201, respEtag := some (etag payload) }, st2)

/-- The `child_ops` array built by `patch_plan` from
`updates["linkedPlanServices"]`: for each item, an op for the
`linkedService` and one for the `planserviceCostShares`, each only when it
carries a truthy `objectId`. -/
def patchChildOps (object_id : String) (updates : JDict) : List JVal :=
  (asArrOr (jget updates "linkedPlanServices")).flatMap (fun item =>
    let svc := asDictOr (jget (asDict item) "linkedService")
    let svcOps := match jget svc "objectId" with
      | some sid =>
          if truthy sid then
            [JVal.obj [("type", JVal.str "linkedService"), ("parentId", JVal.str object_id),
                       ("id", sid), ("doc", JVal.obj svc)]]
          else []
      | none => []
    let cost := asDictOr (jget (asDict item) "planserviceCostShares")
    let costOps := match jget cost "objectId" with
      | some cid =>
          if truthy cid then
            [JVal.obj [("type", JVal.str "planserviceCostShares"), ("parentId", JVal.str object_id),
                       ("id", cid), ("doc", JVal.obj cost)]]
          else []
      | none => []
    svcOps ++ costOps)

/-- The partial-update job published by `patch_plan`
(`controllers/plan_controller.py` lines 163-168): the payload is carried in
`plan_doc` (the changed plan-level fields among `planType`, `_org`,
`creationDate`) and `child_ops`; there is no `doc` field. -/
def patchJob (object_id : String) (updates : JDict) : JDict :=
  [("type", JVal.str "patch"),
   ("id", JVal.str object_id),
   ("plan_doc", JVal.obj (["planType", "_org", "creationDate"].filterMap
      (fun k => (jget updates k).map (fun v => (k, v))))),
   ("child_ops", JVal.arr (patchChildOps object_id updates))]

/-- `patch_plan(object_id)` (`controllers/plan_controller.py` lines 103-179):
404 when no truthy stored record; 412 when a truthy `If-Match` differs from
the stored record's etag, before any mutation; otherwise shallow-merge the
updates (replacing `linkedPlanServices` wholesale only when the client sent
one), validate, store the merged record, publish the `patch` job, and answer
200 with the merged record's etag. -/
def patch_plan_ctrl (valid : JDict → Bool) (queueUp : Bool) (object_id : String)
    (updates : JDict) (ifMatch : Option String) (st : ApiState) : Resp × ApiState :=
  let existing? := kvGet st.store (planKey object_id)
  if !kvTruthy existing? then ({ status := 404 }, st)
  else
    let existing := existing?.getD []
    if hdrTruthy ifMatch && (ifMatch.getD "") != etag existing then
      ({ status := 412 }, st)
    else
      let merged0 := dictMerge existing (updates.filter (fun p => p.1 != "linkedPlanServices"))
      let merged :=
        match jget updates "linkedPlanServices" with
        | some lps => dictSet merged0 "linkedPlanServices" lps
        | none => merged0
      if !valid merged then ({ status := 400 }, st)
      else
        let st1 : ApiState := { st with store := kvSet st.store (planKey object_id) merged }
        if !queueUp then ({ status := 503 }, st1)
        else
          let st2 : ApiState := { st1 with queue := st1.queue ++ [patchJob object_id updates] }
          ({ status := 200, respEtag := some (etag merged) }, st2)

/-- The job published by `delete_plan`: `{"type": "delete", "id": object_id}`. -/
def deleteJob (object_id : String) : JDict :=
  [("type", JVal.str "delete"), ("id", JVal.str object_id)]

/-- `delete_plan(object_id)` (`controllers/plan_controller.py` lines 182-196):
record whether a truthy record existed, delete the key, publish a `delete`
job (503 when the queue is down), and only then answer 404 or 202. -/
def delete_plan_ctrl (queueUp : Bool) (object_id : String) (st : ApiState) : Resp × ApiState :=
  let existed := kvTruthy (kvGet st.store (planKey object_id))
  let st1 : ApiState := { st with store := kvDel st.store (planKey object_id) }
  if !queueUp then ({ status := 503 }, st1)
  else
    let st2 : ApiState := { st1 with queue := st1.queue ++ [deleteJob object_id] }
    if !existed then ({ status := 404 }, st2)
    else ({ status := 202 }, st2)

/-! ## Derived notions used by the verification -/

/-- A parent-document upsert: its stored `rel` join field is the plain
relation name `"plan"` marking the hierarchy root. -/
def isParentOp (op : IndexOp) : Bool :=
  jget op.document "rel" == some (JVal.str "plan")

/-- A child-document upsert: its stored `rel` join field is an object
(`{"name": ..., "parent": ...}`). -/
def isChildOp (op : IndexOp) : Bool :=
  match jget op.document "rel" with
  | some (.obj _) => true
  | _ => false

/-- The scalar plan-level fields `index_plan` copies into the parent
document: `{k: plan_doc.get(k) for k in ("_org","planType","creationDate") if k in plan_doc}`. -/
def parentScalarFields (plan_doc : JDict) : JDict :=
  ["_org", "planType", "creationDate"].filterMap
    (fun k => (jget plan_doc k).map (fun v => (k, v)))

/-- Whether a nested sub-object is an identified (independently indexable)
child: it carries a truthy `objectId`. -/
def hasChildId (child : JDict) : Bool :=
  truthyO (jget child "objectId")

/-- The number of identified children of a full record: the plan cost-share,
plus per `linkedPlanServices` item its linked service and its service
cost-share. -/
def childCount (plan_doc : JDict) : Nat :=
  (if hasChildId (asDictOr (jget plan_doc "planCostShares")) then 1 else 0) +
  ((asArrOr (jget plan_doc "linkedPlanServices")).map (fun item =>
      (if hasChildId (asDictOr (jget (asDict item) "linkedService")) then 1 else 0) +
      (if hasChildId (asDictOr (jget (asDict item) "planserviceCostShares")) then 1 else 0))).sum

/-- Whether a key is bound in the list of upserts. -/
def writesKey (ops : List IndexOp) (k : JVal) : Bool :=
  ops.any (fun op => op.docId == k)

/-- The empty search index. -/
def emptyIndex : IndexState := fun _ => none

/-! ## Well-formed JSON and insertion-order equivalence (for the fingerprint)

A Python dict cannot bind the same key twice, so every object level of a
record decoded from JSON has duplicate-free keys (`wf`).  Two values are
copies of the same logical record up to field insertion order (`SameJson`)
when they agree everywhere except that each object's field list may be
permuted, recursively. -/

mutual

/-- Every object level has duplicate-free keys (true of any value built by
`json.loads` or a Python dict literal). -/
def wf : JVal → Bool
  | .null => true
  | .bool _ => true
  | .num _ => true
  | .str _ => true
  | .arr xs => wfList xs
  | .obj fs => decide ((fs.map Prod.fst).Nodup) && wfFields fs

/-- `wf` on each element of an array. -/
def wfList : List JVal → Bool
  | [] => true
  | x :: xs => wf x && wfList xs

/-- `wf` on each field value of an object. -/
def wfFields : List (String × JVal) → Bool
  | [] => true
  | (_, v) :: ps => wf v && wfFields ps

end

mutual

/-- Two JSON values are the same logical record up to the insertion order of
object fields, at every nesting level. -/
inductive SameJson : JVal → JVal → Prop where
  | null : SameJson .null .null
  | bool (b : Bool) : SameJson (.bool b) (.bool b)
  | num (n : Int) : SameJson (.num n) (.num n)
  | str (s : String) : SameJson (.str s) (.str s)
  | arr {xs ys : List JVal} : SameList xs ys → SameJson (.arr xs) (.arr ys)
  | obj {fs gs gs' : List (String × JVal)} :
      SameFields fs gs → gs.Perm gs' → SameJson (.obj fs) (.obj gs')

/-- Pointwise `SameJson` on array elements. -/
inductive SameList : List JVal → List JVal → Prop where
  | nil : SameList [] []
  | cons {x y : JVal} {xs ys : List JVal} :
      SameJson x y → SameList xs ys → SameList (x :: xs) (y :: ys)

/-- Pointwise key-preserving `SameJson` on object fields. -/
inductive SameFields : List (String × JVal) → List (String × JVal) → Prop where
  | nil : SameFields [] []
  | cons {k : String} {v w : JVal} {ps qs : List (String × JVal)} :
      SameJson v w → SameFields ps qs → SameFields ((k, v) :: ps) ((k, w) :: qs)

end

/-! ## Concrete example values used by the closed theorems -/

/-- A stored record for the concrete scenarios. -/
def exRecord : JDict :=
  [("objectId", JVal.str "p1"), ("planType", JVal.str "bronze")]

/-- A partial-update body changing one plan-level field. -/
def exUpdates : JDict := [("planType", JVal.str "gold")]

/-- An API state holding `exRecord` under `plan_p1` with an empty queue. -/
def exState : ApiState := { store := [(planKey "p1", exRecord)], queue := [] }

/-- The spec's §8 scenario record: parent `p1` with one linked-service child
`s1`. -/
def exScenario : JDict :=
  [("objectId", JVal.str "p1"),
   ("linkedPlanServices",
     JVal.arr [JVal.obj [("linkedService", JVal.obj [("objectId", JVal.str "s1")])]])]

/-- The fan-out of `exScenario` (parent is skipped: no scalar fields). -/
def exScenarioOps : List IndexOp :=
  match index_plan exScenario with
  | .ok ops => ops
  | .error _ => []

/-- A delete job for `p1`, as the worker receives it. -/
def exDeleteJob : JDict := [("type", JVal.str "delete"), ("id", JVal.str "p1")]

/-- An index state with one document that is not `p1`. -/
def exIndex : IndexState :=
  fun k => if k = JVal.str "q7" then some ([("objectId", JVal.str "q7")], JVal.str "q7") else none

/-- A job with an unrecognized `type`. -/
def exBogusJob : JDict := [("type", JVal.str "bogus")]

/-- An `index` job whose record lacks an `objectId` (rejected by the
indexer with `ValueError`). -/
def exNoIdJob : JDict := [("type", JVal.str "index"), ("doc", JVal.obj [])]

/-- A two-field record. -/
def exRecA : JDict := [("b", JVal.num 1), ("a", JVal.num 2)]

/-- The same logical record as `exRecA` with the fields inserted in the
other order. -/
def exRecB : JDict := [("a", JVal.num 2), ("b", JVal.num 1)]

/-! ## Lemmas about dict operations -/

theorem jget_nil (k : String) : jget [] k = none := rfl

theorem jget_cons (p : String × JVal) (d : JDict) (k : String) :
    jget (p :: d) k = if p.1 = k then some p.2 else jget d k := by
  by_cases h : p.1 = k <;> simp [jget, List.find?_cons, h]

theorem jget_map_set_ne (d : JDict) (k k' : String) (v : JVal) (h : k' ≠ k) :
    jget (d.map (fun p => if p.1 == k then (k, v) else p)) k' = jget d k' := by
  induction d with
  | nil => rfl
  | cons a d ih =>
    simp only [List.map_cons]
    by_cases hak : a.1 = k
    · simp [jget_cons, hak, Ne.symm h]
      simpa using ih
    · by_cases hak' : a.1 = k'
      · simp [jget_cons, hak, hak', h]
      · simp [jget_cons, hak, hak']
        simpa using ih

theorem jget_append_ne (d : JDict) (k k' : String) (v : JVal) (h : k' ≠ k) :
    jget (d ++ [(k, v)]) k' = jget d k' := by
  induction d with
  | nil => simp [jget_cons, jget_nil, Ne.symm h]
  | cons a d ih =>
    by_cases hak' : a.1 = k'
    · simp [jget_cons, hak']
    · simp [jget_cons, hak', ih]

theorem jget_dictSet_ne (d : JDict) (k k' : String) (v : JVal) (h : k' ≠ k) :
    jget (dictSet d k v) k' = jget d k' := by
  unfold dictSet
  by_cases hs : (d.find? (fun p => p.1 == k)).isSome
  · rw [if_pos hs]; exact jget_map_set_ne d k k' v h
  · rw [if_neg hs]; exact jget_append_ne d k k' v h

theorem jget_map_set_self (d : JDict) (k : String) (v : JVal)
    (h : (jget d k).isSome = true) :
    jget (d.map (fun p => if p.1 == k then (k, v) else p)) k = some v := by
  induction d with
  | nil => simp [jget_nil] at h
  | cons a d ih =>
    by_cases hak : a.1 = k
    · simp [jget_cons, hak]
    · simp only [jget_cons, hak, if_false] at h
      simp [jget_cons, hak]
      simpa using ih h

theorem jget_append_self (d : JDict) (k : String) (v : JVal)
    (h : jget d k = none) :
    jget (d ++ [(k, v)]) k = some v := by
  induction d with
  | nil => simp [jget_cons, jget_nil]
  | cons a d ih =>
    by_cases hak : a.1 = k
    · simp [jget_cons, hak] at h
    · simp only [jget_cons, hak, if_false] at h
      simp [jget_cons, hak, ih h]

theorem find_isSome_eq_jget_isSome (d : JDict) (k : String) :
    (d.find? (fun p => p.1 == k)).isSome = (jget d k).isSome := by
  unfold jget
  cases d.find? (fun p => p.1 == k) <;> rfl

theorem jget_dictSet_self (d : JDict) (k : String) (v : JVal) :
    jget (dictSet d k v) k = some v := by
  unfold dictSet
  by_cases hs : (d.find? (fun p => p.1 == k)).isSome
  · rw [if_pos hs]
    exact jget_map_set_self d k v ((find_isSome_eq_jget_isSome d k).symm.trans hs)
  · rw [if_neg hs]
    refine jget_append_self d k v ?_
    rw [find_isSome_eq_jget_isSome] at hs
    cases h : jget d k
    · rfl
    · exact absurd (by simp [h]) hs

theorem dictMerge_cons (a : JDict) (p : String × JVal) (b : JDict) :
    dictMerge a (p :: b) = dictMerge (dictSet a p.1 p.2) b := rfl

theorem dictMerge_single (a : JDict) (k : String) (v : JVal) :
    dictMerge a [(k, v)] = dictSet a k v := rfl

theorem jget_dictMerge_notMem (b a : JDict) (k : String)
    (h : ∀ p ∈ b, p.1 ≠ k) :
    jget (dictMerge a b) k = jget a k := by
  induction b generalizing a with
  | nil => rfl
  | cons p b ih =>
    rw [dictMerge_cons]
    rw [ih (dictSet a p.1 p.2) (fun q hq => h q (List.mem_cons_of_mem p hq))]
    exact jget_dictSet_ne a p.1 k p.2 (Ne.symm (h p (List.mem_cons_self p b)))

/-! ## C10: DELETE issues its effects before the not-found response -/

/-- **C10**: for every object id, `delete_plan` issues the key-value delete
and publishes a `delete` job even when no record is stored under that id;
the 404 response is produced only after both effects, so deleting a
nonexistent record still enqueues a cascade-delete job. -/
theorem delete_effects_before_not_found (object_id : String) (st : ApiState)
    (h : kvGet st.store (planKey object_id) = none) :
    delete_plan_ctrl true object_id st =
      ({ status := 404 },
       { store := kvDel st.store (planKey object_id),
         queue := st.queue ++ [deleteJob object_id] }) := by
  unfold delete_plan_ctrl
  simp [h, kvTruthy]

/-- Witness for C10 at a concrete state: `p2` is not stored in `exState`,
yet the delete is issued and the `delete` job is enqueued before the 404. -/
theorem delete_effects_before_not_found_witness :
    delete_plan_ctrl true "p2" exState =
      ({ status := 404 },
       { store := kvDel exState.store (planKey "p2"),
         queue := exState.queue ++ [deleteJob "p2"] }) :=
  delete_effects_before_not_found "p2" exState rfl

/-! ## C4: conditional writes reject on a stale `If-Match` before mutating -/

/-- **C4**: for a stored record with digest D, a PUT or PATCH presenting an
`If-Match` digest different from D is rejected with 412, and neither writes
the store nor publishes a job: the returned state is the input state, so the
precondition check happens strictly before any mutation.  (The PUT handler
validates the body before the guard, so its conjunct assumes a
schema-valid payload.) -/
theorem conditional_write_conflict_no_mutation
    (valid : JDict → Bool) (queueUp : Bool) (object_id : String)
    (payload updates ex : JDict) (im : String) (st : ApiState)
    (hex : kvGet st.store (planKey object_id) = some ex)
    (hne : ex ≠ [])
    (him : im ≠ "")
    (hdiff : im ≠ etag ex) :
    (valid payload = true →
      put_plan_ctrl valid queueUp object_id payload (some im) st = ({ status := 412 }, st)) ∧
    patch_plan_ctrl valid queueUp object_id updates (some im) st = ({ status := 412 }, st) := by
  have hb : ex.isEmpty = false := by
    cases ex
    · exact absurd rfl hne
    · rfl
  constructor
  · intro hv
    unfold put_plan_ctrl
    simp [hv, hex, kvTruthy, hdrTruthy, him, hb, hdiff]
  · unfold patch_plan_ctrl
    simp [hex, kvTruthy, hdrTruthy, him, hb, hdiff]

/-- Witness for C4: a stale `If-Match` against the stored `exRecord` leaves
the state untouched and returns 412 for both PUT and PATCH. -/
theorem conditional_write_conflict_no_mutation_witness :
    put_plan_ctrl (fun _ => true) true "p1" exUpdates (some "stale") exState
      = ({ status := 412 }, exState) ∧
    patch_plan_ctrl (fun _ => true) true "p1" exUpdates (some "stale") exState
      = ({ status := 412 }, exState) :=
  ⟨(conditional_write_conflict_no_mutation (fun _ => true) true "p1" exUpdates exUpdates
      exRecord "stale" exState rfl (by decide) (by decide) (by decide)).1 rfl,
   (conditional_write_conflict_no_mutation (fun _ => true) true "p1" exUpdates exUpdates
      exRecord "stale" exState rfl (by decide) (by decide) (by decide)).2⟩

/-! ## C3: permanent failures are dead-lettered on the first delivery -/

/-- **C3**: every job whose processing raises a non-transient error (an
unrecognized `type`, a malformed payload, or an application-level rejection
such as a record lacking an `objectId`) is acknowledged and routed to the
dead-letter queue immediately on that delivery — no republish, and the
dead-lettered job body is the original job with its `attempt` counter
untouched. -/
theorem permanent_failure_dead_letter (esDown : Bool) (job : JDict) (e : PyErr)
    (h : processJob job = .error e) :
    on_msg esDown job = .ackDlq (dlqBody (errStr e) job) := by
  unfold on_msg
  rw [h]

/-- Witness for C3: an unknown-type job and an `index` job lacking an
`objectId` are each dead-lettered on first delivery, with and without the
downstream store reachable. -/
theorem permanent_failure_dead_letter_witness :
    on_msg false exBogusJob
      = .ackDlq (dlqBody "Unknown job type bogus" exBogusJob) ∧
    on_msg true exNoIdJob
      = .ackDlq (dlqBody "index_plan: objectId (plan id) is required" exNoIdJob) :=
  ⟨permanent_failure_dead_letter false exBogusJob
      (.valueError "Unknown job type bogus") rfl,
   permanent_failure_dead_letter true exNoIdJob
      (.valueError "index_plan: objectId (plan id) is required") rfl⟩

/-! ## C2: transient failures retry with backoff up to the ceiling -/

theorem processJob_dictSet_attempt (job : JDict) (v : JVal) :
    processJob (dictSet job "attempt" v) = processJob job := by
  unfold processJob
  rw [jget_dictSet_ne job "attempt" "type" v (by decide),
      jget_dictSet_ne job "attempt" "doc" v (by decide),
      jget_dictSet_ne job "attempt" "id" v (by decide)]

theorem retrySeq_succ (job₀ : JDict) (n : Nat) :
    retrySeq job₀ (n + 1)
      = dictSet (retrySeq job₀ n) "attempt" (.num (pyAttempt (retrySeq job₀ n) + 1)) := rfl

theorem processJob_retrySeq (job₀ : JDict) : ∀ n, processJob (retrySeq job₀ n) = processJob job₀
  | 0 => rfl
  | n + 1 => by
      rw [retrySeq_succ, processJob_dictSet_attempt, processJob_retrySeq job₀ n]

theorem pyAttempt_retrySeq (job₀ : JDict) (h : pyAttempt job₀ = 0) :
    ∀ n : Nat, pyAttempt (retrySeq job₀ n) = (n : Int)
  | 0 => by simpa using h
  | n + 1 => by
      have ih := pyAttempt_retrySeq job₀ h n
      rw [retrySeq_succ]
      unfold pyAttempt
      rw [jget_dictSet_self]
      show pyAttempt (retrySeq job₀ n) + 1 = ((n + 1 : Nat) : Int)
      rw [ih]
      omega

/-- **C2**: a job failing with a transient downstream error is acknowledged,
its `attempt` counter incremented, and — while `attempt ≤ 5` — republished
after sleeping `min(2^attempt, 30)`; once `attempt` exceeds 5 it is routed to
the dead-letter queue with its last error.  Consequently a job that fails
transiently on every delivery is republished exactly on deliveries 1..5
(never past attempt 5) and dead-lettered on delivery 6 with `attempt = 6`,
never earlier. -/
theorem transient_retry_policy :
    (∀ (job : JDict) (act : WorkerAction),
       processJob job = .ok act → esTouches act = true →
       on_msg true job =
         (if pyAttempt job + 1 ≤ MAX_ATTEMPTS then
            .ackSleepRepublish (min (2 ^ (pyAttempt job + 1).toNat) 30)
              (dictSet job "attempt" (.num (pyAttempt job + 1)))
          else .ackDlq (dlqBody transientErrStr
              (dictSet job "attempt" (.num (pyAttempt job + 1)))))) ∧
    (∀ (job₀ : JDict) (act : WorkerAction),
       processJob job₀ = .ok act → esTouches act = true → pyAttempt job₀ = 0 →
       (∀ n : Nat, n < 5 →
          on_msg true (retrySeq job₀ n) =
            .ackSleepRepublish (min (2 ^ (n + 1)) 30) (retrySeq job₀ (n + 1))) ∧
       on_msg true (retrySeq job₀ 5) =
         .ackDlq (dlqBody transientErrStr (retrySeq job₀ 6))) := by
  have step : ∀ (job : JDict) (act : WorkerAction),
      processJob job = .ok act → esTouches act = true →
      on_msg true job =
        (if pyAttempt job + 1 ≤ MAX_ATTEMPTS then
           .ackSleepRepublish (min (2 ^ (pyAttempt job + 1).toNat) 30)
             (dictSet job "attempt" (.num (pyAttempt job + 1)))
         else .ackDlq (dlqBody transientErrStr
             (dictSet job "attempt" (.num (pyAttempt job + 1))))) := by
    intro job act h hT
    unfold on_msg
    rw [h]
    simp [hT]
  refine ⟨step, ?_⟩
  intro job₀ act h hT h0
  constructor
  · intro n hn
    have hp := processJob_retrySeq job₀ n
    rw [h] at hp
    have := step (retrySeq job₀ n) act hp hT
    rw [this, pyAttempt_retrySeq job₀ h0 n]
    have hle : (n : Int) + 1 ≤ MAX_ATTEMPTS := by
      unfold MAX_ATTEMPTS; omega
    rw [if_pos hle]
    have htn : ((n : Int) + 1).toNat = n + 1 := by omega
    rw [htn, retrySeq_succ, pyAttempt_retrySeq job₀ h0 n]
  · have hp := processJob_retrySeq job₀ 5
    rw [h] at hp
    have := step (retrySeq job₀ 5) act hp hT
    rw [this, pyAttempt_retrySeq job₀ h0 5]
    have hgt : ¬(((5 : Nat) : Int) + 1 ≤ MAX_ATTEMPTS) := by
      unfold MAX_ATTEMPTS; omega
    rw [if_neg hgt]
    have h6 : retrySeq job₀ 6
        = dictSet (retrySeq job₀ 5) "attempt" (.num (((5 : Nat) : Int) + 1)) := by
      rw [retrySeq_succ, pyAttempt_retrySeq job₀ h0 5]
    rw [h6]

/-- Witness for C2 at a concrete `delete` job: the first delivery sleeps
`min(2^1,30) = 2` and republishes with `attempt = 1`; the sixth delivery
dead-letters with `attempt = 6`. -/
theorem transient_retry_policy_witness :
    on_msg true exDeleteJob =
      .ackSleepRepublish 2 (dictSet exDeleteJob "attempt" (.num 1)) ∧
    on_msg true (retrySeq exDeleteJob 5) =
      .ackDlq (dlqBody transientErrStr (retrySeq exDeleteJob 6)) :=
  ⟨by
      have := transient_retry_policy.1 exDeleteJob
        (.didDelete (JVal.str "p1")) rfl rfl
      simpa using this,
   (transient_retry_policy.2 exDeleteJob
      (.didDelete (JVal.str "p1")) rfl rfl rfl).2⟩

/-! ## C1: the patch wire format never reaches the indexer's patch entry -/

/-- **C1** (refuted by the code): the PATCH handler publishes partial-update
jobs carrying `plan_doc` and `child_ops` and no `doc` field, but the worker's
`patch` dispatch reads `job["doc"]`, so every such job raises
`KeyError('doc')` and is classified a permanent failure and dead-lettered —
the payload is never passed to the indexer's patch entry point. -/
theorem patch_job_wire_format_mismatch :
    (patch_plan_ctrl (fun _ => true) true "p1" exUpdates none exState).2.queue
        = [patchJob "p1" exUpdates] ∧
    (patch_plan_ctrl (fun _ => true) true "p1" exUpdates none exState).1.status = 200 ∧
    jget (patchJob "p1" exUpdates) "type" = some (JVal.str "patch") ∧
    jget (patchJob "p1" exUpdates) "plan_doc"
        = some (JVal.obj [("planType", JVal.str "gold")]) ∧
    jget (patchJob "p1" exUpdates) "child_ops" = some (JVal.arr []) ∧
    jget (patchJob "p1" exUpdates) "doc" = none ∧
    on_msg false (patchJob "p1" exUpdates)
        = .ackDlq (dlqBody "'doc'" (patchJob "p1" exUpdates)) ∧
    on_msg true (patchJob "p1" exUpdates)
        = .ackDlq (dlqBody "'doc'" (patchJob "p1" exUpdates)) := by
  exact ⟨rfl, rfl, rfl, rfl, rfl, rfl, rfl, rfl⟩


/-! ## C8: cascade delete tolerates a missing parent -/

/-- **C8**: `deleteRecord(id)` removes the parent document by id — treating a
missing parent as a silent no-op, not an error — then every document whose
join relation names `id` as its parent, then (redundantly) every document
routed to `id`; any other document is untouched.  When the parent is absent,
the call degenerates to exactly the two cascade delete-by-query steps. -/
theorem delete_record_cascade (s : IndexState) (plan_id : JVal) :
    (∀ k, delete_plan_from_index s plan_id k =
       match s k with
       | none => none
       | some d =>
         if k = plan_id ∨ relParent d.1 = some plan_id ∨ d.2 = plan_id then none
         else some d) ∧
    (s plan_id = none →
      delete_plan_from_index s plan_id =
        deleteByQuery (fun d => d.2 == plan_id)
          (deleteByQuery (fun d => relParent d.1 == some plan_id) s)) := by
  constructor
  · intro k
    unfold delete_plan_from_index deleteByQuery esDeleteDoc
    by_cases hkp : k = plan_id
    · subst hkp
      cases hs : s k <;> simp [hs]
    · cases hs : s plan_id <;> cases hk : s k <;> simp [hs, hk, hkp] <;>
        (try split_ifs <;> simp_all)
  · intro hp
    unfold delete_plan_from_index esDeleteDoc
    rw [hp]

/-- Witness for C8: deleting `p1` from an index that never contained `p1`
raises no error and performs exactly the two cascade steps. -/
theorem delete_record_cascade_witness :
    delete_plan_from_index exIndex (JVal.str "p1") =
      deleteByQuery (fun d => d.2 == JVal.str "p1")
        (deleteByQuery (fun d => relParent d.1 == some (JVal.str "p1")) exIndex) :=
  (delete_record_cascade exIndex (JVal.str "p1")).2 (by decide)

/-! ## C7: the fan-out is idempotent -/

theorem applyOps_cons (s : IndexState) (op : IndexOp) (ops : List IndexOp) :
    applyOps s (op :: ops) = applyOps (applyOp s op) ops := rfl

theorem applyOps_unwritten :
    ∀ (ops : List IndexOp) (s : IndexState) (k : JVal),
      writesKey ops k = false → applyOps s ops k = s k
  | [], _, _, _ => rfl
  | op :: ops, s, k, h => by
      have h' : (op.docId == k) = false ∧ writesKey ops k = false := by
        simpa [writesKey, List.any_cons] using h
      rw [applyOps_cons, applyOps_unwritten ops _ k h'.2]
      unfold applyOp
      have hne : ¬k = op.docId := by
        intro he
        subst he
        simp at h'
      rw [if_neg hne]

theorem applyOps_written :
    ∀ (ops : List IndexOp) (k : JVal), writesKey ops k = true →
      ∀ s t : IndexState, applyOps s ops k = applyOps t ops k
  | [], k, h => by simp [writesKey] at h
  | op :: ops, k, h => fun s t => by
      by_cases hw : writesKey ops k = true
      · rw [applyOps_cons, applyOps_cons]
        exact applyOps_written ops k hw _ _
      · have hwf : writesKey ops k = false := by simpa using hw
        have hop : k = op.docId := by
          have hd : op.docId = k ∨ ∃ x ∈ ops, x.docId = k := by
            simpa [writesKey, List.any_cons] using h
          have hnone : ∀ x ∈ ops, ¬x.docId = k := by
            simpa [writesKey, List.any_eq_true] using hwf
          rcases hd with h1 | ⟨x, hx, hx2⟩
          · exact h1.symm
          · exact absurd hx2 (hnone x hx)
        rw [applyOps_cons, applyOps_cons,
            applyOps_unwritten ops _ k hwf, applyOps_unwritten ops _ k hwf]
        unfold applyOp
        rw [if_pos hop, if_pos hop]

theorem applyOps_idem (ops : List IndexOp) (s : IndexState) :
    applyOps (applyOps s ops) ops = applyOps s ops := by
  funext k
  by_cases h : writesKey ops k = true
  · exact applyOps_written ops k h _ _
  · have hf : writesKey ops k = false := by simpa using h
    rw [applyOps_unwritten ops _ k hf]

/-- **C7**: applying the fan-out of a record (each upsert a full-document
overwrite at a fixed id with a fixed routing) twice yields the same index
state as applying it once — same document ids, same field values, same
routing. -/
theorem index_record_idempotent (plan_doc : JDict) (ops : List IndexOp)
    (s : IndexState) (h : index_plan plan_doc = Except.ok ops) :
    applyOps (applyOps s ops) ops = applyOps s ops :=
  applyOps_idem ops s

/-- Witness for C7: re-applying the fan-out of the spec's §8 scenario record
to the resulting index leaves it unchanged. -/
theorem index_record_idempotent_witness :
    applyOps (applyOps emptyIndex exScenarioOps) exScenarioOps
      = applyOps emptyIndex exScenarioOps :=
  index_record_idempotent exScenario exScenarioOps emptyIndex rfl

/-! ## C5 and C6: fan-out decomposition and child routing -/

theorem parentScalarFields_keys (d : JDict) :
    ∀ p ∈ parentScalarFields d,
      p.1 = "_org" ∨ p.1 = "planType" ∨ p.1 = "creationDate" := by
  intro p hp
  simp only [parentScalarFields, List.mem_filterMap] at hp
  rcases hp with ⟨k, hk, hf⟩
  rcases Option.map_eq_some'.1 hf with ⟨v, _, rfl⟩
  simpa using hk

theorem parent_doc_rel (pid : JVal) (pf : JDict)
    (hrel : ∀ p ∈ pf, p.1 ≠ "rel") :
    jget (dictMerge
      [("objectId", pid), ("objectType", JVal.str "plan"), ("rel", JVal.str "plan")] pf)
      "rel" = some (JVal.str "plan") := by
  rw [jget_dictMerge_notMem pf _ "rel" hrel]
  simp [jget_cons]

theorem upsertChild_rel (parent_id child_id : JVal) (relName : String) (doc : JDict) :
    jget (upsertChild parent_id child_id relName doc).document "rel"
      = some (JVal.obj [("name", JVal.str relName), ("parent", parent_id)]) := by
  unfold upsertChild
  rw [dictMerge_single, jget_dictSet_self]

theorem upsertChild_relParent (parent_id child_id : JVal) (relName : String) (doc : JDict) :
    relParent (upsertChild parent_id child_id relName doc).document = some parent_id := by
  unfold relParent
  rw [upsertChild_rel]
  simp [jget_cons]

theorem isChildOp_upsertChild (parent_id child_id : JVal) (relName : String) (doc : JDict) :
    isChildOp (upsertChild parent_id child_id relName doc) = true := by
  unfold isChildOp
  rw [upsertChild_rel]

theorem isParentOp_upsertChild (parent_id child_id : JVal) (relName : String) (doc : JDict) :
    isParentOp (upsertChild parent_id child_id relName doc) = false := by
  unfold isParentOp
  rw [upsertChild_rel]
  simp

theorem mem_childOpIfId {op : IndexOp} {pid : JVal} {r : String} {c : JDict}
    (h : op ∈ childOpIfId pid r c) :
    ∃ cid, jget c "objectId" = some cid ∧ op = upsertChild pid cid r c := by
  unfold childOpIfId at h
  cases hc : jget c "objectId"
  · rw [hc] at h; simp at h
  · rw [hc] at h
    dsimp only at h
    split_ifs at h with ht
    · simp at h; exact ⟨_, rfl, h⟩
    · simp at h

theorem childOpIfId_length (pid : JVal) (r : String) (c : JDict) :
    (childOpIfId pid r c).length = if hasChildId c then 1 else 0 := by
  unfold childOpIfId hasChildId truthyO
  cases jget c "objectId"
  · simp
  · dsimp only
    split_ifs <;> simp_all

theorem index_plan_ok_shape (plan_doc : JDict) (pid : JVal) (ops : List IndexOp)
    (h1 : jget plan_doc "objectId" = some pid)
    (h2 : index_plan plan_doc = Except.ok ops) :
    ops = upsertParent pid (parentScalarFields plan_doc) ++
      childOpIfId pid "planCostShares" (asDictOr (jget plan_doc "planCostShares")) ++
      (asArrOr (jget plan_doc "linkedPlanServices")).flatMap (itemChildOps pid) := by
  unfold index_plan at h2
  rw [h1] at h2
  dsimp only at h2
  split_ifs at h2 with ht
  simp only [Except.ok.injEq] at h2
  subst h2
  rfl

theorem routing_rel_of_upsertParent (pid : JVal) (pf : JDict)
    (hrel : ∀ p ∈ pf, p.1 ≠ "rel") :
    ∀ op ∈ upsertParent pid pf,
      op.routing = pid ∧ (isChildOp op = true → relParent op.document = some pid) := by
  intro op hop
  unfold upsertParent at hop
  split_ifs at hop with he
  · simp at hop
  · simp only [List.mem_singleton] at hop
    subst hop
    refine ⟨rfl, fun hc => ?_⟩
    unfold isChildOp at hc
    dsimp only at hc
    rw [parent_doc_rel pid pf hrel] at hc
    simp at hc

theorem routing_rel_of_childOpIfId (pid : JVal) (r : String) (c : JDict) :
    ∀ op ∈ childOpIfId pid r c,
      op.routing = pid ∧ (isChildOp op = true → relParent op.document = some pid) := by
  intro op hop
  rcases mem_childOpIfId hop with ⟨cid, _, rfl⟩
  exact ⟨rfl, fun _ => upsertChild_relParent pid cid r c⟩

theorem routing_rel_of_itemChildOps (pid : JVal) (item : JVal) :
    ∀ op ∈ itemChildOps pid item,
      op.routing = pid ∧ (isChildOp op = true → relParent op.document = some pid) := by
  intro op hop
  unfold itemChildOps at hop
  rcases List.mem_append.1 hop with h | h
  · exact routing_rel_of_childOpIfId pid _ _ op h
  · exact routing_rel_of_childOpIfId pid _ _ op h

/-- **C6**: every child-document upsert issued by either fan-out entry point
(`index_plan` and the indexer's `patch_plan`) carries a routing key equal to
the parent record's id and a join-relation parent back-reference equal to
that same id (and every parent upsert is likewise routed to its own id).
For the patch entry point, `updates` is a record payload and hence never
binds the reserved join-field key `"rel"`, which only the indexer writes. -/
theorem child_docs_routed_to_parent :
    (∀ (plan_doc : JDict) (pid : JVal) (ops : List IndexOp),
       jget plan_doc "objectId" = some pid →
       index_plan plan_doc = Except.ok ops →
       ∀ op ∈ ops, op.routing = pid ∧
         (isChildOp op = true → relParent op.document = some pid)) ∧
    (∀ (pid : JVal) (updates : JDict),
       (∀ p ∈ updates, p.1 ≠ "rel") →
       ∀ op ∈ es_patch_plan pid updates, op.routing = pid ∧
         (isChildOp op = true → relParent op.document = some pid)) := by
  constructor
  · intro plan_doc pid ops h1 h2 op hop
    rw [index_plan_ok_shape plan_doc pid ops h1 h2] at hop
    rcases List.mem_append.1 hop with h | h
    · rcases List.mem_append.1 h with h' | h'
      · refine routing_rel_of_upsertParent pid _ ?_ op h'
        intro p hp
        rcases parentScalarFields_keys plan_doc p hp with h | h | h <;> simp [h]
      · exact routing_rel_of_childOpIfId pid _ _ op h'
    · rcases List.mem_flatMap.1 h with ⟨item, _, hmem⟩
      exact routing_rel_of_itemChildOps pid item op hmem
  · intro pid updates hrel op hop
    unfold es_patch_plan at hop
    rcases List.mem_append.1 hop with h | h
    · rcases List.mem_append.1 h with h' | h'
      · refine routing_rel_of_upsertParent pid _ ?_ op h'
        intro p hp
        exact hrel p (List.mem_of_mem_filter hp)
      · split_ifs at h'
        · exact routing_rel_of_childOpIfId pid _ _ op h'
        · simp at h'
    · rcases List.mem_flatMap.1 h with ⟨item, _, hmem⟩
      exact routing_rel_of_itemChildOps pid item op hmem

/-- Witness for C6: the single child upsert of the §8 scenario record is
routed to `p1` and its relation tag's parent is `p1`. -/
theorem child_docs_routed_to_parent_witness :
    (upsertChild (JVal.str "p1") (JVal.str "s1") "linkedPlanServices"
        [("objectId", JVal.str "s1")]).routing = JVal.str "p1" ∧
    (isChildOp (upsertChild (JVal.str "p1") (JVal.str "s1") "linkedPlanServices"
        [("objectId", JVal.str "s1")]) = true →
      relParent (upsertChild (JVal.str "p1") (JVal.str "s1") "linkedPlanServices"
        [("objectId", JVal.str "s1")]).document = some (JVal.str "p1")) :=
  child_docs_routed_to_parent.1 exScenario (JVal.str "p1") exScenarioOps rfl rfl
    (upsertChild (JVal.str "p1") (JVal.str "s1") "linkedPlanServices"
      [("objectId", JVal.str "s1")]) (by decide)

theorem mem_keys_dictSet (a : JDict) (k : String) (v : JVal) :
    ∀ x ∈ (dictSet a k v).map Prod.fst, x ∈ a.map Prod.fst ∨ x = k := by
  intro x hx
  unfold dictSet at hx
  split_ifs at hx
  · rw [List.map_map] at hx
    rcases List.mem_map.1 hx with ⟨q, hq, rfl⟩
    by_cases hqk : q.1 = k
    · right; simp [hqk]
    · left
      simp only [Function.comp_apply, beq_iff_eq, hqk, if_false]
      exact List.mem_map_of_mem Prod.fst hq
  · rw [List.map_append] at hx
    rcases List.mem_append.1 hx with h | h
    · left; exact h
    · right; simpa using h

theorem mem_keys_dictMerge :
    ∀ (b a : JDict) (x : String), x ∈ (dictMerge a b).map Prod.fst →
      x ∈ a.map Prod.fst ∨ x ∈ b.map Prod.fst
  | [], _, _, hx => .inl hx
  | q :: b, a, x, hx => by
      rw [dictMerge_cons] at hx
      rcases mem_keys_dictMerge b (dictSet a q.1 q.2) x hx with h | h
      · rcases mem_keys_dictSet a q.1 q.2 x h with h' | h'
        · exact .inl h'
        · right; simp [h']
      · right; simp [h]

theorem isParentOp_parent (pid : JVal) (pf : JDict)
    (hrel : ∀ p ∈ pf, p.1 ≠ "rel") :
    ∀ op ∈ upsertParent pid pf, isParentOp op = true := by
  intro op hop
  unfold upsertParent at hop
  split_ifs at hop with he
  · simp at hop
  · simp only [List.mem_singleton] at hop
    subst hop
    unfold isParentOp
    dsimp only
    rw [parent_doc_rel pid pf hrel]
    simp

theorem upsertParent_length (pid : JVal) (pf : JDict) :
    (upsertParent pid pf).length = if pf.isEmpty then 0 else 1 := by
  unfold upsertParent
  split_ifs <;> rfl

theorem children_not_parent_childOpIfId (pid : JVal) (r : String) (c : JDict) :
    ∀ op ∈ childOpIfId pid r c, isParentOp op = false := by
  intro op hop
  rcases mem_childOpIfId hop with ⟨cid, _, rfl⟩
  exact isParentOp_upsertChild pid cid r c

theorem children_not_parent_itemChildOps (pid : JVal) (item : JVal) :
    ∀ op ∈ itemChildOps pid item, isParentOp op = false := by
  intro op hop
  rcases List.mem_append.1 hop with h | h
  · exact children_not_parent_childOpIfId pid _ _ op h
  · exact children_not_parent_childOpIfId pid _ _ op h

theorem filter_all_false {l : List IndexOp} (h : ∀ op ∈ l, isParentOp op = false) :
    l.filter isParentOp = [] ∧ l.filter (fun op => !isParentOp op) = l := by
  constructor
  · rw [List.filter_eq_nil_iff]
    intro op hop
    simp [h op hop]
  · rw [List.filter_eq_self]
    intro op hop
    simp [h op hop]

theorem filter_all_true {l : List IndexOp} (h : ∀ op ∈ l, isParentOp op = true) :
    l.filter isParentOp = l ∧ l.filter (fun op => !isParentOp op) = [] := by
  constructor
  · rw [List.filter_eq_self]
    intro op hop
    simp [h op hop]
  · rw [List.filter_eq_nil_iff]
    intro op hop
    simp [h op hop]

theorem itemChildOps_length (pid : JVal) (item : JVal) :
    (itemChildOps pid item).length =
      (if hasChildId (asDictOr (jget (asDict item) "linkedService")) then 1 else 0) +
      (if hasChildId (asDictOr (jget (asDict item) "planserviceCostShares")) then 1 else 0) := by
  unfold itemChildOps
  rw [List.length_append, childOpIfId_length, childOpIfId_length]

theorem flatMap_itemChildOps_length (pid : JVal) :
    ∀ items : List JVal,
      (items.flatMap (itemChildOps pid)).length =
        (items.map (fun item =>
          (if hasChildId (asDictOr (jget (asDict item) "linkedService")) then 1 else 0) +
          (if hasChildId (asDictOr (jget (asDict item) "planserviceCostShares")) then 1 else 0))).sum
  | [] => rfl
  | item :: items => by
      rw [List.flatMap_cons, List.length_append, itemChildOps_length,
        flatMap_itemChildOps_length pid items, List.map_cons, List.sum_cons]

/-- **C5** (counterexample): the record `{"objectId": "p1"}` carries an
`objectId`, yet `index_plan` issues no upsert at all — `_upsert_parent`
returns early on an empty scalar-field dict — contradicting “exactly one
parent-document upsert”. -/
theorem index_parent_upsert_counterexample :
    index_plan [("objectId", JVal.str "p1")] = Except.ok [] := rfl

/-- **C5** (amended): for every record with a truthy `objectId`, `index_plan`
issues exactly one parent-document upsert when the record carries at least
one of the scalar fields `_org`, `planType`, `creationDate`, and none
otherwise; the parent document's keys are only those scalar fields plus the
identity and relation tags (never the nested child structures); and it issues
exactly one child-document upsert per identified child (the cost-share, each
linked service, and each linked service's cost-share). -/
theorem index_fanout_decomposition (plan_doc : JDict) (pid : JVal) (ops : List IndexOp)
    (h1 : jget plan_doc "objectId" = some pid)
    (h2 : index_plan plan_doc = Except.ok ops) :
    (ops.filter isParentOp).length
        = (if (parentScalarFields plan_doc).isEmpty then 0 else 1) ∧
    (∀ op ∈ ops, isParentOp op = true →
       ∀ p ∈ op.document, p.1 ∈ (["objectId", "objectType", "rel",
           "_org", "planType", "creationDate"] : List String)) ∧
    (ops.filter (fun op => !isParentOp op)).length = childCount plan_doc := by
  have hshape := index_plan_ok_shape plan_doc pid ops h1 h2
  have hrel : ∀ p ∈ parentScalarFields plan_doc, p.1 ≠ "rel" := by
    intro p hp
    rcases parentScalarFields_keys plan_doc p hp with h | h | h <;> simp [h]
  subst hshape
  have hA := filter_all_true (isParentOp_parent pid _ hrel)
  have hB := filter_all_false
    (children_not_parent_childOpIfId pid "planCostShares"
      (asDictOr (jget plan_doc "planCostShares")))
  have hC : ∀ op ∈ (asArrOr (jget plan_doc "linkedPlanServices")).flatMap (itemChildOps pid),
      isParentOp op = false := by
    intro op hop
    rcases List.mem_flatMap.1 hop with ⟨item, _, hmem⟩
    exact children_not_parent_itemChildOps pid item op hmem
  have hC' := filter_all_false hC
  refine ⟨?_, ?_, ?_⟩
  · rw [List.filter_append, List.filter_append, hA.1, hB.1, hC'.1,
      List.append_nil, List.append_nil, upsertParent_length]
  · intro op hop hpar p hp
    rcases List.mem_append.1 hop with h | h
    · rcases List.mem_append.1 h with h' | h'
      · unfold upsertParent at h'
        split_ifs at h' with he
        · simp at h'
        · simp only [List.mem_singleton] at h'
          subst h'
          dsimp only at hp
          have hx : p.1 ∈ (dictMerge
              [("objectId", pid), ("objectType", JVal.str "plan"), ("rel", JVal.str "plan")]
              (parentScalarFields plan_doc)).map Prod.fst :=
            List.mem_map_of_mem Prod.fst hp
          rcases mem_keys_dictMerge _ _ _ hx with hb | hf
          · simp only [List.map_cons, List.map_nil, List.mem_cons,
              List.not_mem_nil, or_false] at hb
            rcases hb with h | h | h <;> simp [h]
          · rcases List.mem_map.1 hf with ⟨q, hq, hqe⟩
            rcases parentScalarFields_keys plan_doc q hq with h | h | h <;>
              rw [← hqe] <;> simp [h]
      · rw [children_not_parent_childOpIfId _ _ _ op h'] at hpar
        exact absurd hpar (by simp)
    · rw [hC op h] at hpar
      exact absurd hpar (by simp)
  · rw [List.filter_append, List.filter_append, hA.2, hB.2, hC'.2, List.nil_append,
      List.length_append, childOpIfId_length, flatMap_itemChildOps_length]
    rfl

/-- Witness for C5 on the §8 scenario record: no scalar fields, hence no
parent upsert, and exactly one child upsert for the single identified
child. -/
theorem index_fanout_decomposition_witness :
    ((exScenarioOps.filter isParentOp).length
        = (if (parentScalarFields exScenario).isEmpty then 0 else 1)) ∧
    (∀ op ∈ exScenarioOps, isParentOp op = true →
       ∀ p ∈ op.document, p.1 ∈ (["objectId", "objectType", "rel",
           "_org", "planType", "creationDate"] : List String)) ∧
    (exScenarioOps.filter (fun op => !isParentOp op)).length = childCount exScenario :=
  index_fanout_decomposition exScenario (JVal.str "p1") exScenarioOps rfl rfl

/-! ## C9: fingerprint determinism under field insertion order -/

theorem listLe_total : ∀ a b : List Char, listLe a b = true ∨ listLe b a = true
  | [], _ => .inl rfl
  | _ :: _, [] => .inr rfl
  | a :: as, b :: bs => by
      rcases Nat.lt_trichotomy a.toNat b.toNat with h | h | h
      · left; simp [listLe, h]
      · rcases listLe_total as bs with ih | ih
        · left; simp [listLe, h, ih]
        · right; simp [listLe, h, ih]
      · right; simp [listLe, h]

theorem listLe_trans :
    ∀ a b c : List Char, listLe a b = true → listLe b c = true → listLe a c = true
  | [], _, _, _, _ => rfl
  | _ :: _, [], _, h1, _ => by simp [listLe] at h1
  | _ :: _, _ :: _, [], _, h2 => by simp [listLe] at h2
  | a :: as, b :: bs, c :: cs, h1, h2 => by
      simp only [listLe] at h1 h2 ⊢
      split_ifs at h1 with hab hba
      · split_ifs at h2 with hbc hcb
        · simp [Nat.lt_trans hab hbc]
        · have hac : a.toNat < c.toNat := by omega
          simp [hac]
      · split_ifs at h2 with hbc hcb
        · have hac : a.toNat < c.toNat := by omega
          simp [hac]
        · have h3 := listLe_trans as bs cs h1 h2
          have hnac : ¬a.toNat < c.toNat := by omega
          have hnca : ¬c.toNat < a.toNat := by omega
          simp [hnac, hnca, h3]

theorem listLe_antisymm :
    ∀ a b : List Char, listLe a b = true → listLe b a = true → a = b
  | [], [], _, _ => rfl
  | [], _ :: _, _, h2 => by simp [listLe] at h2
  | _ :: _, [], h1, _ => by simp [listLe] at h1
  | a :: as, b :: bs, h1, h2 => by
      simp only [listLe] at h1 h2
      split_ifs at h1 with hab hba
      · have hnba : ¬b.toNat < a.toNat := by omega
        rw [if_neg hnba, if_pos hab] at h2
        exact absurd h2 (by simp)
      · rw [if_neg hba, if_neg hab] at h2
        have ht : a.toNat = b.toNat := by omega
        have heq : a = b := Char.ext (UInt32.toNat.inj ht)
        rw [heq, listLe_antisymm as bs h1 h2]

theorem sortPairs_sorted (l : List (String × String)) : List.Sorted keyLe (sortPairs l) := by
  haveI : IsTotal (String × String) keyLe := ⟨fun a b => listLe_total a.1.data b.1.data⟩
  haveI : IsTrans (String × String) keyLe :=
    ⟨fun a b c h1 h2 => listLe_trans a.1.data b.1.data c.1.data h1 h2⟩
  exact List.sorted_insertionSort keyLe l

theorem sortPairs_perm (l : List (String × String)) : (sortPairs l).Perm l :=
  List.perm_insertionSort keyLe l

theorem sortPairs_perm_eq {l1 l2 : List (String × String)}
    (hp : l1.Perm l2) (hnd : (l1.map Prod.fst).Nodup) :
    sortPairs l1 = sortPairs l2 := by
  have hs1 := sortPairs_sorted l1
  have hs2 := sortPairs_sorted l2
  have hnd1 : ((sortPairs l1).map Prod.fst).Nodup :=
    (((sortPairs_perm l1).map Prod.fst).nodup_iff).2 hnd
  have hnd2 : ((sortPairs l2).map Prod.fst).Nodup := by
    have e2 : ((sortPairs l2).map Prod.fst).Perm (l1.map Prod.fst) :=
      ((sortPairs_perm l2).map Prod.fst).trans (hp.symm.map Prod.fst)
    exact e2.nodup_iff.2 hnd
  have hne1 : (sortPairs l1).Pairwise (fun p q => p.1 ≠ q.1) := by
    have h' := hnd1
    unfold List.Nodup at h'
    exact List.pairwise_map.1 h'
  have hne2 : (sortPairs l2).Pairwise (fun p q => p.1 ≠ q.1) := by
    have h' := hnd2
    unfold List.Nodup at h'
    exact List.pairwise_map.1 h'
  have hs1' : (sortPairs l1).Pairwise (fun p q => keyLe p q ∧ p.1 ≠ q.1) := hs1.and hne1
  have hs2' : (sortPairs l2).Pairwise (fun p q => keyLe p q ∧ p.1 ≠ q.1) := hs2.and hne2
  haveI : IsAntisymm (String × String) (fun p q => keyLe p q ∧ p.1 ≠ q.1) :=
    ⟨fun a b h1 h2 =>
      absurd (String.ext (listLe_antisymm a.1.data b.1.data h1.1 h2.1)) h1.2⟩
  have hperm : (sortPairs l1).Perm (sortPairs l2) :=
    (sortPairs_perm l1).trans (hp.trans (sortPairs_perm l2).symm)
  exact List.eq_of_perm_of_sorted hperm hs1' hs2'

theorem dumpsFields_eq_map :
    ∀ ps : List (String × JVal), dumpsFields ps = ps.map (fun p => (p.1, dumps p.2))
  | [] => rfl
  | (k, v) :: ps => by
      simp [dumpsFields, dumpsFields_eq_map ps]

theorem dumpsFields_keys (ps : List (String × JVal)) :
    (dumpsFields ps).map Prod.fst = ps.map Prod.fst := by
  rw [dumpsFields_eq_map, List.map_map]
  rfl

theorem sameFields_keys : ∀ {ps qs : List (String × JVal)},
    SameFields ps qs → ps.map Prod.fst = qs.map Prod.fst
  | _, _, .nil => rfl
  | _, _, .cons hv hps => by
      simp [sameFields_keys hps]

mutual

theorem dumps_sameJson : ∀ {a b : JVal}, SameJson a b → wf a = true → dumps a = dumps b
  | _, _, .null, _ => rfl
  | _, _, .bool b, _ => rfl
  | _, _, .num n, _ => rfl
  | _, _, .str s, _ => rfl
  | _, _, @SameJson.arr xs ys h, hwf => by
      have hw : wfList xs = true := by simpa [wf] using hwf
      simp only [dumps]
      rw [dumpsList_same h hw]
  | _, _, @SameJson.obj fs gs gs' hfields hperm, hwf => by
      have hwf' : (fs.map Prod.fst).Nodup ∧ wfFields fs = true := by
        simpa [wf] using hwf
      have h1 : dumpsFields fs = dumpsFields gs := dumpsFields_same hfields hwf'.2
      have hkeys : fs.map Prod.fst = gs.map Prod.fst := sameFields_keys hfields
      have h2 : (dumpsFields gs).Perm (dumpsFields gs') := by
        rw [dumpsFields_eq_map, dumpsFields_eq_map]
        exact hperm.map _
      have hnd : ((dumpsFields gs).map Prod.fst).Nodup := by
        rw [dumpsFields_keys, ← hkeys]
        exact hwf'.1
      have h3 : sortPairs (dumpsFields gs) = sortPairs (dumpsFields gs') :=
        sortPairs_perm_eq h2 hnd
      simp only [dumps]
      rw [h1, h3]

theorem dumpsList_same : ∀ {xs ys : List JVal},
    SameList xs ys → wfList xs = true → dumpsList xs = dumpsList ys
  | _, _, .nil, _ => rfl
  | _, _, @SameList.cons x y xs ys hx hxs, hwf => by
      have hw : wf x = true ∧ wfList xs = true := by simpa [wfList] using hwf
      simp only [dumpsList]
      rw [dumps_sameJson hx hw.1, dumpsList_same hxs hw.2]

theorem dumpsFields_same : ∀ {ps qs : List (String × JVal)},
    SameFields ps qs → wfFields ps = true → dumpsFields ps = dumpsFields qs
  | _, _, .nil, _ => rfl
  | _, _, @SameFields.cons k v w ps qs hv hps, hwf => by
      have hw : wf v = true ∧ wfFields ps = true := by simpa [wfFields] using hwf
      simp only [dumpsFields]
      rw [dumps_sameJson hv hw.1, dumpsFields_same hps hw.2]

end

mutual

theorem sameJson_refl : ∀ a : JVal, SameJson a a
  | .null => .null
  | .bool b => .bool b
  | .num n => .num n
  | .str s => .str s
  | .arr xs => .arr (sameList_refl xs)
  | .obj fs => .obj (sameFields_refl fs) (List.Perm.refl fs)

theorem sameList_refl : ∀ xs : List JVal, SameList xs xs
  | [] => .nil
  | x :: xs => .cons (sameJson_refl x) (sameList_refl xs)

theorem sameFields_refl : ∀ ps : List (String × JVal), SameFields ps ps
  | [] => .nil
  | (_, v) :: ps => .cons (sameJson_refl v) (sameFields_refl ps)

end

/-- **C9**: the fingerprint is pure and deterministic — two records that are
the same logical record up to the insertion order of their fields (at every
nesting level, with the duplicate-free keys every Python dict has) receive
identical digests, because `json.dumps(..., sort_keys=True)` canonicalizes
the serialization before hashing. -/
theorem fingerprint_deterministic (r1 r2 : JDict)
    (hwf : wf (JVal.obj r1) = true)
    (hsame : SameJson (JVal.obj r1) (JVal.obj r2)) :
    etag r1 = etag r2 :=
  congrArg md5Hex (dumps_sameJson hsame hwf)

/-- Witness for C9: the two-field record with its fields inserted in either
order fingerprints identically. -/
theorem fingerprint_deterministic_witness : etag exRecA = etag exRecB :=
  fingerprint_deterministic exRecA exRecB (by decide)
    (.obj (sameFields_refl exRecA)
      (List.Perm.swap ("a", JVal.num 2) ("b", JVal.num 1) []))
